import Mathlib

/-!
Shallow embedding of the saleae-logic acquisition driver
(src/libsigrok/sigrok-proto.h, second document: saleae-logic.c) and proofs
about its trigger matcher, acquisition engine, rate encoder, probe
configuration and device open/close paths.

Machine integers are modelled as Nat/Int; sample bytes are Nat values below
256 combined with bitwise operations exactly as the C code does.  External
effects (libusb calls, the session bus) are modelled by explicit outputs:
emitted datafeed packets are collected in lists, bulk-OUT commands sent to
the device are collected as byte lists, and the success of external calls
(libusb_open, libusb_claim_interface, libusb_bulk_transfer) is passed in as
a boolean parameter.
-/

namespace Saleae

/-- Modelled from the spec: `NUM_TRIGGER_STAGES` is defined in saleae-logic.h,
which is not among the sources; the spec fixes four trigger stages
(`trigger_mask[S]`, `S = N_STAGES`, "typically 4", and scenario C uses a
four-stage pattern). -/
def NUM_TRIGGER_STAGES : Nat := 4

/-- Modelled from the spec: `MAX_EMPTY_TRANSFERS` is defined in saleae-logic.h,
which is not among the sources; spec scenario D fixes the value 3. -/
def MAX_EMPTY_TRANSFERS : Nat := 3

/-- Modelled from the spec: `TRIGGER_FIRED` is defined in saleae-logic.h, which
is not among the sources.  The code guards the search loop with
`ctx->trigger_stage >= 0`, so the sentinel is negative; the spec names -1. -/
def TRIGGER_FIRED : Int := -1

/-- Modelled from the spec: the status codes come from sigrok.h, which is not
among the sources.  Only their distinctness matters for the driver code
(`SR_OK`, `SR_ERR`, `SR_ERR_SAMPLERATE` are the ones it returns). -/
inductive SRStatus where
  | ok
  | err
  | errSamplerate
deriving Repr, DecidableEq

/-- The driver-private per-device state `struct context` (the fields the
embedded functions touch: probe mask, trigger arrays, trigger stage, trigger
buffer, current samplerate and sample limit).  The trigger arrays have
`NUM_TRIGGER_STAGES` entries; reads use `List.getD` and writes `List.set`. -/
structure Context where
  probe_mask : Nat
  trigger_mask : List Nat
  trigger_value : List Nat
  trigger_stage : Int
  trigger_buffer : List Nat
  cur_samplerate : Nat
  limit_samples : Nat
deriving Repr, DecidableEq

/-- A context with everything zeroed and no trigger configured
(`trigger_stage = TRIGGER_FIRED`, as `fx2_dev_new` initializes it). -/
def ctxZ : Context :=
  { probe_mask := 0
    trigger_mask := [0, 0, 0, 0]
    trigger_value := [0, 0, 0, 0]
    trigger_stage := TRIGGER_FIRED
    trigger_buffer := [0, 0, 0, 0]
    cur_samplerate := 0
    limit_samples := 0 }

/-- Datafeed packets sent to the session bus (`sr_session_send`).  A LOGIC
packet carries its payload bytes; its length field is the payload length. -/
inductive Packet where
  | header
  | trigger
  | logic (data : List Nat)
  | dfEnd
deriving Repr, DecidableEq

/-- Length field of a packet when it is a LOGIC packet, 0 otherwise. -/
def logicLen : Packet → Nat
  | .logic d => d.length
  | _ => 0

/-- Whether a packet is a LOGIC packet. -/
def isLogic : Packet → Bool
  | .logic _ => true
  | _ => false

/-- Sum of the lengths of all LOGIC packets in a trace. -/
def sumLogic (ps : List Packet) : Nat := (ps.map logicLen).sum

/-! ### Rate encoder (`new_firmware_divider_value`, `set_samplerate`) -/

/-- The `supported_samplerates` table (SR_KHZ/SR_MHZ expanded to Hz); the
terminating 0 sentinel is modelled by using list membership for the scan in
`set_samplerate`. -/
def supported_samplerates : List Nat :=
  [200000, 250000, 500000, 1000000, 2000000, 4000000,
   8000000, 12000000, 16000000, 24000000]

/-- Function `new_firmware_divider_value`: hard-coded divider lookup for the new
firmware; returns 0 (after logging) on any other rate. -/
def new_firmware_divider_value (samplerate : Nat) : Nat :=
  if samplerate = 24000000 then 0xe0
  else if samplerate = 16000000 then 0xd5
  else if samplerate = 12000000 then 0xe2
  else if samplerate = 8000000 then 0xd4
  else if samplerate = 4000000 then 0xda
  else if samplerate = 2000000 then 0xe6
  else if samplerate = 1000000 then 0x8e
  else if samplerate = 500000 then 0xfe
  else if samplerate = 250000 then 0x9e
  else if samplerate = 200000 then 0x4e
  else 0

/-- The legacy-firmware divider `(uint8_t)(48 / (samplerate / 1000000.0)) - 1`.
For every rate in `supported_samplerates` the double-precision computation
`48 / (samplerate / 1000000.0)` yields exactly the integer
`48000000 / samplerate` (the divisions are exact for all rates except
200 kHz, where 48 / (double)0.2 = 239.99999999999998... rounds to the double
240.0), so the truncating uint8_t cast gives `48000000 / samplerate`; the
subsequent `- 1` wraps modulo 256, written here as `+ 255` mod 256. -/
def legacy_divider_value (samplerate : Nat) : Nat :=
  (48000000 / samplerate + 255) % 256

/-- Function `set_samplerate`: scan the supported-rate table (0-terminated scan =
membership), pick the divider for the firmware generation, send the 2-byte
command `[cmd, divider]` on bulk OUT endpoint 1, and record the new rate only
if the transfer succeeded.  `newFw` is the global
`new_saleae_logic_firmware`; `transferOk` is the libusb_bulk_transfer result.
Returns (status, updated context, commands sent to the device). -/
def set_samplerate (newFw transferOk : Bool) (ctx : Context) (samplerate : Nat) :
    SRStatus × Context × List (List Nat) :=
  if samplerate ∈ supported_samplerates then
    if transferOk then
      (.ok, { ctx with cur_samplerate := samplerate },
        [[if newFw then 0xd5 else 0x01,
          if newFw then new_firmware_divider_value samplerate
          else legacy_divider_value samplerate]])
    else
      (.err, ctx,
        [[if newFw then 0xd5 else 0x01,
          if newFw then new_firmware_divider_value samplerate
          else legacy_divider_value samplerate]])
  else
    (.errSamplerate, ctx, [])

/-! ### Probe / trigger configuration (`configure_probes`) -/

/-- A `struct sr_probe` as far as `configure_probes` reads it: 1-based index,
enabled flag, optional trigger string. -/
structure SrProbe where
  index : Nat
  enabled : Bool
  trigger : Option (List Char)
deriving Repr, DecidableEq

/-- The inner `for (tc = probe->trigger; *tc; tc++)` loop of
`configure_probes`.  Each character ORs `probe_bit` into
`trigger_mask[stage]` (and into `trigger_value[stage]` for a '1'), then
increments `stage` and fails with SR_ERR when `stage > NUM_TRIGGER_STAGES`.
Every written array index is recorded in `writes` (the C performs the write
before the bounds check, so an over-long string writes index
`NUM_TRIGGER_STAGES` first).  Returns (ok flag, trigger_mask, trigger_value,
final stage, writes). -/
def configure_probes_trigger_loop (probe_bit : Nat) :
    List Char → List Nat → List Nat → Nat → List Nat →
      Bool × List Nat × List Nat × Nat × List Nat
  | [], tm, tv, stage, ws => (true, tm, tv, stage, ws)
  | c :: cs, tm, tv, stage, ws =>
    let tm' := tm.set stage (tm.getD stage 0 ||| probe_bit)
    let tv' := if c = '1' then tv.set stage (tv.getD stage 0 ||| probe_bit) else tv
    let ws' := ws ++ [stage]
    if NUM_TRIGGER_STAGES < stage + 1 then (false, tm', tv', stage + 1, ws')
    else configure_probes_trigger_loop probe_bit cs tm' tv' (stage + 1) ws'

/-- The outer probe loop of `configure_probes`.  `stage` is the C local
`stage` variable, `none` standing for its -1 initialization (only the
comparison with -1 at the end matters).  On SR_ERR the function returns at
once with the partially updated masks, exactly as the C does. -/
def configure_probes_go :
    List SrProbe → Context → Option Nat → List Nat → SRStatus × Context × List Nat
  | [], ctx, stage, ws =>
    match stage with
    | none => (.ok, { ctx with trigger_stage := TRIGGER_FIRED }, ws)
    | some _ => (.ok, { ctx with trigger_stage := 0 }, ws)
  | p :: ps, ctx, stage, ws =>
    if p.enabled = false then configure_probes_go ps ctx stage ws
    else
      let probe_bit := 2 ^ (p.index - 1)
      let ctx1 := { ctx with probe_mask := ctx.probe_mask ||| probe_bit }
      match p.trigger with
      | none => configure_probes_go ps ctx1 stage ws
      | some cs =>
        if (configure_probes_trigger_loop probe_bit cs
              ctx1.trigger_mask ctx1.trigger_value 0 ws).1 = true then
          configure_probes_go ps
            { ctx1 with
                trigger_mask := (configure_probes_trigger_loop probe_bit cs
                  ctx1.trigger_mask ctx1.trigger_value 0 ws).2.1
                trigger_value := (configure_probes_trigger_loop probe_bit cs
                  ctx1.trigger_mask ctx1.trigger_value 0 ws).2.2.1 }
            (some (configure_probes_trigger_loop probe_bit cs
              ctx1.trigger_mask ctx1.trigger_value 0 ws).2.2.2.1)
            (configure_probes_trigger_loop probe_bit cs
              ctx1.trigger_mask ctx1.trigger_value 0 ws).2.2.2.2
        else
          (.err,
           { ctx1 with
               trigger_mask := (configure_probes_trigger_loop probe_bit cs
                 ctx1.trigger_mask ctx1.trigger_value 0 ws).2.1
               trigger_value := (configure_probes_trigger_loop probe_bit cs
                 ctx1.trigger_mask ctx1.trigger_value 0 ws).2.2.1 },
           (configure_probes_trigger_loop probe_bit cs
             ctx1.trigger_mask ctx1.trigger_value 0 ws).2.2.2.2)

/-- Function `configure_probes`: zero the probe mask and trigger arrays, then process
each probe; finally set `trigger_stage` to 0 if any trigger was configured
and to TRIGGER_FIRED otherwise.  Also returns the list of trigger-array
indices written. -/
def configure_probes (ctx : Context) (probes : List SrProbe) :
    SRStatus × Context × List Nat :=
  configure_probes_go probes
    { ctx with probe_mask := 0
               trigger_mask := List.replicate NUM_TRIGGER_STAGES 0
               trigger_value := List.replicate NUM_TRIGGER_STAGES 0 }
    none []

/-! ### The acquisition engine (`receive_transfer`, `hw_dev_acquisition_stop`) -/

/-- The engine state: the device context plus the two function-static
variables of `receive_transfer` (`num_samples`, `empty_transfer_count`).
`num_samples = -1` is the kill switch set by `hw_dev_acquisition_stop`. -/
structure EngineState where
  ctx : Context
  num_samples : Int
  empty_transfer_count : Nat
deriving Repr, DecidableEq

/-- Outcome of the trigger-search `for` loop in `receive_transfer`:
`ret` is the early `return` taken when a stage matched without firing,
`fired` is the `break` after the trigger fired (carrying `trigger_offset`
and the TRIGGER and trigger_buffer LOGIC packets already sent), `done` is
normal loop exit with the trigger still unfired. -/
inductive MatchOut where
  | ret (c : Context)
  | fired (c : Context) (off : Nat) (pkts : List Packet)
  | done (c : Context)
deriving Repr, DecidableEq

/-- The trigger-search loop of `receive_transfer`, entered only when
`trigger_stage >= 0`.  The C index `i` is an int that the backtrack step
rewrites as `i -= trigger_stage; if (i < -1) i = -1;` before the loop's
`i++`; the combined next index `max (i - stage, -1) + 1` equals the Nat
expression `i + 1 - stage` used here.  `fuel` bounds the number of loop
steps: a stage advance leaves the loop (return or break), so at most one
backtrack can occur per call, and the loop iterates at most
`buf.length + 1` times; callers pass `buf.length + 2`. -/
def trigger_search (buf : List Nat) : Nat → Context → Nat → MatchOut
  | 0, ctx, _ => .done ctx
  | fuel + 1, ctx, i =>
    if i < buf.length then
      if buf.getD i 0 &&& ctx.trigger_mask.getD ctx.trigger_stage.toNat 0
          = ctx.trigger_value.getD ctx.trigger_stage.toNat 0 then
        if ctx.trigger_stage.toNat + 1 = NUM_TRIGGER_STAGES
            ∨ ctx.trigger_mask.getD (ctx.trigger_stage.toNat + 1) 0 = 0 then
          .fired
            { ctx with
                trigger_buffer :=
                  ctx.trigger_buffer.set ctx.trigger_stage.toNat (buf.getD i 0)
                trigger_stage := TRIGGER_FIRED }
            (i + 1)
            [Packet.trigger,
             Packet.logic
               ((ctx.trigger_buffer.set ctx.trigger_stage.toNat
                   (buf.getD i 0)).take (ctx.trigger_stage.toNat + 1))]
        else
          .ret
            { ctx with
                trigger_buffer :=
                  ctx.trigger_buffer.set ctx.trigger_stage.toNat (buf.getD i 0)
                trigger_stage := ctx.trigger_stage + 1 }
      else
        if 0 < ctx.trigger_stage.toNat then
          trigger_search buf fuel { ctx with trigger_stage := 0 }
            (i + 1 - ctx.trigger_stage.toNat)
        else
          trigger_search buf fuel ctx (i + 1)
    else
      .done ctx

/-- The tail of `receive_transfer` after the trigger search: if the trigger
has fired, send the transfer from `trigger_offset` on as a LOGIC packet, add
`cur_buflen` to `num_samples`, and stop (END packet plus kill switch) when a
nonzero `limit_samples` is exceeded.  `pkts` are the packets the search loop
already sent.  The empty-transfer counter was reset to 0 before the search
(the `cur_buflen > 0` branch). -/
def receive_transfer_fired (st : EngineState) (buf : List Nat) (c : Context)
    (off : Nat) (pkts : List Packet) : EngineState × List Packet :=
  if c.trigger_stage = TRIGGER_FIRED then
    if c.limit_samples ≠ 0 ∧ (c.limit_samples : Int) < st.num_samples + buf.length then
      ({ st with ctx := c, num_samples := -1, empty_transfer_count := 0 },
       pkts ++ [Packet.logic (buf.drop off), Packet.dfEnd])
    else
      ({ st with ctx := c, num_samples := st.num_samples + buf.length,
                 empty_transfer_count := 0 },
       pkts ++ [Packet.logic (buf.drop off)])
  else
    ({ st with ctx := c, empty_transfer_count := 0 }, pkts)

/-- Function `receive_transfer`.  Here `none` is the NULL call from
`hw_dev_acquisition_stop` (sets the kill switch); with the kill switch set,
a queued transfer is freed with no output.  A zero-length transfer bumps the
empty-transfer counter and stops the acquisition (END + kill switch) once
the counter exceeds MAX_EMPTY_TRANSFERS.  Buffer reallocation and transfer
resubmission have no observable effect here and are not modelled (malloc is
assumed to succeed; a failed resubmit only logs). -/
def receive_transfer (st : EngineState) (transfer : Option (List Nat)) :
    EngineState × List Packet :=
  match transfer with
  | none => ({ st with num_samples := -1 }, [])
  | some buf =>
    if st.num_samples = -1 then (st, [])
    else if buf.length = 0 then
      if MAX_EMPTY_TRANSFERS < st.empty_transfer_count + 1 then
        ({ st with empty_transfer_count := st.empty_transfer_count + 1,
                   num_samples := -1 }, [Packet.dfEnd])
      else
        ({ st with empty_transfer_count := st.empty_transfer_count + 1 }, [])
    else
      if 0 ≤ st.ctx.trigger_stage then
        match trigger_search buf (buf.length + 2) st.ctx 0 with
        | .ret c => ({ st with ctx := c, empty_transfer_count := 0 }, [])
        | .done c => receive_transfer_fired st buf c 0 []
        | .fired c off pkts => receive_transfer_fired st buf c off pkts
      else
        receive_transfer_fired st buf st.ctx 0 []

/-- Function `hw_dev_acquisition_stop`: unconditionally send an END packet, then call
`receive_transfer(NULL)` to set the kill switch. -/
def hw_dev_acquisition_stop (st : EngineState) : EngineState × List Packet :=
  ((receive_transfer st none).1, Packet.dfEnd :: (receive_transfer st none).2)

/-- Run the completion callback over a sequence of completed transfers,
collecting all emitted packets. -/
def runTransfers : EngineState → List (List Nat) → EngineState × List Packet
  | st, [] => (st, [])
  | st, buf :: ts =>
    ((runTransfers (receive_transfer st (some buf)).1 ts).1,
     (receive_transfer st (some buf)).2 ++
       (runTransfers (receive_transfer st (some buf)).1 ts).2)

/-- Driver operations that touch the engine state: `hw_dev_acquisition_start`
(emits HEADER; does not touch the static counters), `hw_dev_acquisition_stop`,
and a completed transfer. -/
inductive DriverOp where
  | start
  | stop
  | transfer (buf : List Nat)
deriving Repr, DecidableEq

/-- One driver operation acting on the engine state. -/
def runOp (st : EngineState) : DriverOp → EngineState × List Packet
  | .start => (st, [Packet.header])
  | .stop => hw_dev_acquisition_stop st
  | .transfer buf => receive_transfer st (some buf)

/-- A sequence of driver operations on the process-wide engine state. -/
def runOps : EngineState → List DriverOp → EngineState × List Packet
  | st, [] => (st, [])
  | st, op :: ops =>
    ((runOps (runOp st op).1 ops).1,
     (runOp st op).2 ++ (runOps (runOp st op).1 ops).2)

/-! ### Device lifecycle (`sl_open_dev`, `hw_dev_open`, `close_dev`) -/

/-- Device status `sdi->status` (SR_ST_*). -/
inductive DevStatus where
  | initializing
  | inactive
  | active
  | notFound
deriving Repr, DecidableEq

/-- One entry of the libusb device list as `sl_open_dev` inspects it:
bus number, device address, descriptor VID/PID, and whether `libusb_open`
succeeds on it. -/
structure UsbDev where
  bus : Nat
  address : Nat
  vid : Nat
  pid : Nat
  openOk : Bool
deriving Repr, DecidableEq

/-- A device instance (`struct sr_dev_inst` plus the `struct context` and
`struct sr_usb_dev_inst` fields touched by open/close): status, recorded USB
bus/address (0xff = address not yet known), whether `usb->devhdl` is
non-null, the firmware-upload timestamp (0 = firmware was already present),
the profile's post-firmware VID/PID, and the driver context. -/
structure Dev where
  status : DevStatus
  usb_bus : Nat
  usb_address : Nat
  devhdl : Bool
  fw_updated : Nat
  fw_vid : Nat
  fw_pid : Nat
  ctx : Context
deriving Repr, DecidableEq

/-- The device-list scan of `sl_open_dev`: skip entries whose VID/PID do not
match the profile's firmware VID/PID; during INITIALIZING skip matching
devices until the skip counter equals `dev_index`; during INACTIVE skip
entries whose bus/address differ from the recorded ones.  On the first
remaining entry try `libusb_open`: on success record the address if it was
the 0xff sentinel, set status ACTIVE and the handle; either way the loop
breaks there.  After the loop, a status other than ACTIVE means SR_ERR. -/
def sl_open_dev_scan (d : Dev) (devIndex : Nat) : List UsbDev → Nat → SRStatus × Dev
  | [], _ => (.err, d)
  | u :: us, skip =>
    if u.vid = d.fw_vid ∧ u.pid = d.fw_pid then
      if d.status = DevStatus.initializing ∧ skip ≠ devIndex then
        sl_open_dev_scan d devIndex us (skip + 1)
      else if d.status = DevStatus.inactive
          ∧ (u.bus ≠ d.usb_bus ∨ u.address ≠ d.usb_address) then
        sl_open_dev_scan d devIndex us skip
      else
        if u.openOk then
          (.ok,
           { d with usb_address := if d.usb_address = 0xff then u.address else d.usb_address
                    status := DevStatus.active
                    devhdl := true })
        else
          (.err, d)
    else
      sl_open_dev_scan d devIndex us skip

/-- Function `sl_open_dev`: fails at once if the device is already ACTIVE, otherwise
scans the device list. -/
def sl_open_dev (devlist : List UsbDev) (devIndex : Nat) (d : Dev) : SRStatus × Dev :=
  if d.status = DevStatus.active then (.err, d)
  else sl_open_dev_scan d devIndex devlist 0

/-- Function `hw_dev_open`: open the device (the firmware-renumeration wait loop only
repeats `sl_open_dev` against the same bus state, so it is collapsed to a
single call here), claim the interface (`claimOk` is the
libusb_claim_interface result), and if `cur_samplerate` is 0 set it to the
slowest supported rate via `hw_dev_config_set`/`set_samplerate` (the open
fails only when that returns SR_ERR).  Returns (status, device, commands
sent to the device). -/
def hw_dev_open (devlist : List UsbDev) (devIndex : Nat)
    (claimOk newFw transferOk : Bool) (d : Dev) :
    SRStatus × Dev × List (List Nat) :=
  if (sl_open_dev devlist devIndex d).1 ≠ SRStatus.ok then
    (.err, (sl_open_dev devlist devIndex d).2, [])
  else if claimOk = false then
    (.err, (sl_open_dev devlist devIndex d).2, [])
  else if (sl_open_dev devlist devIndex d).2.ctx.cur_samplerate = 0 then
    if (set_samplerate newFw transferOk
          (sl_open_dev devlist devIndex d).2.ctx 200000).1 = SRStatus.err then
      (.err,
       { (sl_open_dev devlist devIndex d).2 with
           ctx := (set_samplerate newFw transferOk
             (sl_open_dev devlist devIndex d).2.ctx 200000).2.1 },
       (set_samplerate newFw transferOk
         (sl_open_dev devlist devIndex d).2.ctx 200000).2.2)
    else
      (.ok,
       { (sl_open_dev devlist devIndex d).2 with
           ctx := (set_samplerate newFw transferOk
             (sl_open_dev devlist devIndex d).2.ctx 200000).2.1 },
       (set_samplerate newFw transferOk
         (sl_open_dev devlist devIndex d).2.ctx 200000).2.2)
  else (.ok, (sl_open_dev devlist devIndex d).2, [])

/-- Function `close_dev`: a no-op when the handle is already null; otherwise release
the interface, close the handle and return to INACTIVE. -/
def close_dev (d : Dev) : Dev :=
  if d.devhdl = false then d
  else { d with devhdl := false, status := DevStatus.inactive }

/-! ### `hw_dev_config_set` -/

/-- The value argument of `hw_dev_config_set`, tagged by the hwcap it is
passed with. -/
inductive ConfigValue where
  | samplerate (rate : Nat)
  | probeconfig (probes : List SrProbe)
  | limitSamples (n : Nat)
  | otherCap
deriving Repr, DecidableEq

/-- Function `hw_dev_config_set`: dispatch on the hwcap.  Returns (status, updated
context, commands sent to the device). -/
def hw_dev_config_set (newFw transferOk : Bool) (ctx : Context) (v : ConfigValue) :
    SRStatus × Context × List (List Nat) :=
  match v with
  | .samplerate rate => set_samplerate newFw transferOk ctx rate
  | .probeconfig probes =>
    match configure_probes ctx probes with
    | (r, c, _) => (r, c, [])
  | .limitSamples n => (.ok, { ctx with limit_samples := n }, [])
  | .otherCap => (.err, ctx, [])

/-! ## Claim theorems -/

/-- Context configured with trigger "01" on probe 1 (spec scenario B). -/
def ctxC1 : Context := (configure_probes ctxZ [⟨1, true, some ['0', '1']⟩]).2.1

/-- C1: evaluation of the code on spec scenario B.  With probe 1 enabled,
trigger "01" and sample_limit = 0, a completed 8-byte transfer
0x00 0x00 0x01 0xFF ... does NOT produce the claimed
TRIGGER / LOGIC(2) / LOGIC(5) sequence: the first 0x00 matches stage 0, the
stage advances to 1 without firing, and `receive_transfer` hits the early
`return` in the match branch, so the whole transfer produces no packets at
all and the remaining seven bytes are never examined. -/
theorem c1_scenario_eval :
    (configure_probes ctxZ [⟨1, true, some ['0', '1']⟩]).1 = SRStatus.ok
  ∧ ctxC1.trigger_mask = [1, 1, 0, 0]
  ∧ ctxC1.trigger_value = [0, 1, 0, 0]
  ∧ ctxC1.trigger_stage = 0
  ∧ ctxC1.limit_samples = 0
  ∧ (receive_transfer ⟨ctxC1, 0, 0⟩
      (some [0x00, 0x00, 0x01, 0xff, 0xff, 0xff, 0xff, 0xff])).2 = []
  ∧ (receive_transfer ⟨ctxC1, 0, 0⟩
      (some [0x00, 0x00, 0x01, 0xff, 0xff, 0xff, 0xff, 0xff])).1.ctx.trigger_stage
      = 1 := by
  decide

/-- C2 counterexample: `hw_dev_acquisition_stop` unconditionally sends an END
packet, so calling it a second time after the acquisition has already been
stopped emits a second END packet — it is not output-idempotent, and the
second END comes after the first stop began. -/
theorem c2_counterexample :
    (hw_dev_acquisition_stop ⟨ctxZ, 0, 0⟩).2
      ++ (hw_dev_acquisition_stop (hw_dev_acquisition_stop ⟨ctxZ, 0, 0⟩).1).2
      = [Packet.dfEnd, Packet.dfEnd]
  ∧ (hw_dev_acquisition_stop (hw_dev_acquisition_stop ⟨ctxZ, 0, 0⟩).1).2 ≠ [] := by
  decide

/-- C2 (amended): every call to `hw_dev_acquisition_stop` emits exactly one
END packet and sets the kill switch; the stop is idempotent on the engine
state (a second call leaves the state unchanged, though it emits another
END), and after a stop every queued transfer completion is freed with no
output whatsoever. -/
theorem c2_amended (st : EngineState) :
    (hw_dev_acquisition_stop st).2 = [Packet.dfEnd]
  ∧ (hw_dev_acquisition_stop st).1.num_samples = -1
  ∧ hw_dev_acquisition_stop (hw_dev_acquisition_stop st).1
      = ((hw_dev_acquisition_stop st).1, [Packet.dfEnd])
  ∧ ∀ buf : List Nat,
      receive_transfer (hw_dev_acquisition_stop st).1 (some buf)
        = ((hw_dev_acquisition_stop st).1, []) := by
  refine ⟨rfl, rfl, rfl, fun buf => ?_⟩
  simp [receive_transfer, hw_dev_acquisition_stop]

/-- Witness for `c2_amended` at a concrete engine state. -/
theorem c2_amended_witness :
    (hw_dev_acquisition_stop ⟨ctxZ, 0, 0⟩).2 = [Packet.dfEnd]
  ∧ receive_transfer (hw_dev_acquisition_stop ⟨ctxZ, 0, 0⟩).1 (some [7])
      = ((hw_dev_acquisition_stop ⟨ctxZ, 0, 0⟩).1, []) :=
  ⟨(c2_amended ⟨ctxZ, 0, 0⟩).1, (c2_amended ⟨ctxZ, 0, 0⟩).2.2.2 [7]⟩

/-- C3: the rate encoder is total on the supported-rate set.  For new
firmware it returns exactly the table values (24 MHz → 0xE0, …,
200 kHz → 0x4E); for legacy firmware it returns floor(48 / rate_MHz) − 1 for
every supported rate, in particular 0x01 for 24 MHz and 0xEF for 200 kHz;
and `set_samplerate` accepts every supported rate under either firmware. -/
theorem c3_rate_encoder :
    new_firmware_divider_value 24000000 = 0xe0
  ∧ new_firmware_divider_value 16000000 = 0xd5
  ∧ new_firmware_divider_value 12000000 = 0xe2
  ∧ new_firmware_divider_value 8000000 = 0xd4
  ∧ new_firmware_divider_value 4000000 = 0xda
  ∧ new_firmware_divider_value 2000000 = 0xe6
  ∧ new_firmware_divider_value 1000000 = 0x8e
  ∧ new_firmware_divider_value 500000 = 0xfe
  ∧ new_firmware_divider_value 250000 = 0x9e
  ∧ new_firmware_divider_value 200000 = 0x4e
  ∧ legacy_divider_value 24000000 = 0x01
  ∧ legacy_divider_value 200000 = 0xef
  ∧ (supported_samplerates.all fun r =>
      decide (legacy_divider_value r = 48000000 / r - 1)) = true
  ∧ (supported_samplerates.all fun r =>
      decide ((set_samplerate true true ctxZ r).1 = SRStatus.ok)) = true
  ∧ (supported_samplerates.all fun r =>
      decide ((set_samplerate false true ctxZ r).1 = SRStatus.ok)) = true := by
  decide

/-- Context configured with trigger "0001" on probe 1 (spec scenario C). -/
def ctxC6 : Context :=
  (configure_probes ctxZ [⟨1, true, some ['0', '0', '0', '1']⟩]).2.1

/-- A context in mid-search (stage 2 of the "0001" pattern), used to witness
the backtrack equation of `c6_backtrack_eval` on a concrete input. -/
def ctxC6w : Context := { ctxC6 with trigger_stage := 2 }

/-- C6: the rewind mechanics are in the code — when the byte at index i
fails to match the current stage and stage > 0, the search continues at
index `max (i - stage, -1) + 1` (the Nat expression `i + 1 - stage`) with
stage reset to 0.  But the claimed consequence is not: on pattern "0001"
against the single transfer {0,0,0,0,1}, the matcher never reaches the
fourth '0', because the first '0' advances stage 0 → 1 and the function
returns at once; no TRIGGER is emitted and trigger_buffer stays {0,0,0,0},
not {0,0,0,1}. -/
theorem c6_backtrack_eval :
    (∀ (ctx : Context) (buf : List Nat) (i fuel : Nat),
        i < buf.length →
        ¬(buf.getD i 0 &&& ctx.trigger_mask.getD ctx.trigger_stage.toNat 0
            = ctx.trigger_value.getD ctx.trigger_stage.toNat 0) →
        0 < ctx.trigger_stage.toNat →
        trigger_search buf (fuel + 1) ctx i
          = trigger_search buf fuel { ctx with trigger_stage := 0 }
              (i + 1 - ctx.trigger_stage.toNat))
  ∧ ctxC6.trigger_mask = [1, 1, 1, 1]
  ∧ ctxC6.trigger_value = [0, 0, 0, 1]
  ∧ ctxC6.trigger_stage = 0
  ∧ (receive_transfer ⟨ctxC6, 0, 0⟩ (some [0, 0, 0, 0, 1])).2 = []
  ∧ (receive_transfer ⟨ctxC6, 0, 0⟩ (some [0, 0, 0, 0, 1])).1.ctx.trigger_stage = 1
  ∧ (receive_transfer ⟨ctxC6, 0, 0⟩ (some [0, 0, 0, 0, 1])).1.ctx.trigger_buffer
      = [0, 0, 0, 0] := by
  refine ⟨?_, by decide, by decide, by decide, by decide, by decide, by decide⟩
  intro ctx buf i fuel h1 h2 h3
  simp only [trigger_search, if_pos h1, if_neg h2, if_pos h3]

/-- Witness for the backtrack equation of `c6_backtrack_eval` at a concrete
mid-search state: byte 5 fails stage 2 of the "0001" pattern, and the search
rewinds to index 0 + 1 - 2 (clamped to 0) with stage 0. -/
theorem c6_backtrack_eval_witness :
    trigger_search [5, 0] (3 + 1) ctxC6w 0
      = trigger_search [5, 0] 3 { ctxC6w with trigger_stage := 0 }
          (0 + 1 - ctxC6w.trigger_stage.toNat) :=
  c6_backtrack_eval.1 ctxC6w [5, 0] 0 3 (by decide) (by decide) (by decide)

/-- C7: `hw_dev_config_set` with an unsupported samplerate fails with
SR_ERR_SAMPLERATE, leaves the context (in particular `cur_samplerate`)
unchanged, and sends no command to the device. -/
theorem c7_unsupported_rate (newFw transferOk : Bool) (ctx : Context) (rate : Nat)
    (h : rate ∉ supported_samplerates) :
    hw_dev_config_set newFw transferOk ctx (ConfigValue.samplerate rate)
      = (SRStatus.errSamplerate, ctx, []) := by
  simp only [hw_dev_config_set, set_samplerate, if_neg h]

/-- Witness for `c7_unsupported_rate` at the spec's scenario E rate of
3 MHz. -/
theorem c7_unsupported_rate_witness :
    hw_dev_config_set true true ctxZ (ConfigValue.samplerate 3000000)
      = (SRStatus.errSamplerate, ctxZ, []) :=
  c7_unsupported_rate true true ctxZ 3000000 (by decide)

/-- Every branch of the post-search tail of `receive_transfer` resets the
empty-transfer counter (the reset of the `cur_len > 0` case). -/
lemma receive_transfer_fired_empty_count (st : EngineState) (buf : List Nat)
    (c : Context) (off : Nat) (pkts : List Packet) :
    (receive_transfer_fired st buf c off pkts).1.empty_transfer_count = 0 := by
  unfold receive_transfer_fired
  split
  · split <;> rfl
  · rfl

/-- Unfolding of `receive_transfer` on a zero-length completion while the
engine is running. -/
lemma receive_transfer_empty (st : EngineState) (h : st.num_samples ≠ -1) :
    receive_transfer st (some []) =
      if MAX_EMPTY_TRANSFERS < st.empty_transfer_count + 1 then
        ({ st with empty_transfer_count := st.empty_transfer_count + 1,
                   num_samples := -1 }, [Packet.dfEnd])
      else ({ st with empty_transfer_count := st.empty_transfer_count + 1 }, []) := by
  simp only [receive_transfer]
  rw [if_neg h]
  rfl

/-- Unfolding of `receive_transfer` on a nonempty completion while the
engine is running. -/
lemma receive_transfer_nonempty (st : EngineState) (buf : List Nat)
    (h : st.num_samples ≠ -1) (hb : buf.length ≠ 0) :
    receive_transfer st (some buf) =
      if 0 ≤ st.ctx.trigger_stage then
        match trigger_search buf (buf.length + 2) st.ctx 0 with
        | .ret c => ({ st with ctx := c, empty_transfer_count := 0 }, [])
        | .done c => receive_transfer_fired st buf c 0 []
        | .fired c off pkts => receive_transfer_fired st buf c off pkts
      else receive_transfer_fired st buf st.ctx 0 [] := by
  simp only [receive_transfer]
  rw [if_neg h, if_neg hb]

/-- C5: a zero-length completion increments the empty-transfer counter and
stops the acquisition (END packet, kill switch) exactly when the counter
exceeds MAX_EMPTY_TRANSFERS; a nonempty completion resets the counter to 0.
Concretely, with MAX_EMPTY_TRANSFERS = 3, three consecutive empty
completions emit nothing, the fourth emits END and sets the kill switch,
and a further completion after that emits nothing. -/
theorem c5_empty_watchdog :
    (∀ st : EngineState, st.num_samples ≠ -1 →
        (receive_transfer st (some [])).1.empty_transfer_count
          = st.empty_transfer_count + 1
      ∧ ((receive_transfer st (some [])).2 = [Packet.dfEnd]
          ↔ MAX_EMPTY_TRANSFERS < st.empty_transfer_count + 1)
      ∧ ((receive_transfer st (some [])).1.num_samples = -1
          ↔ MAX_EMPTY_TRANSFERS < st.empty_transfer_count + 1))
  ∧ (∀ (st : EngineState) (b : Nat) (bs : List Nat), st.num_samples ≠ -1 →
      (receive_transfer st (some (b :: bs))).1.empty_transfer_count = 0)
  ∧ runTransfers ⟨ctxZ, 0, 0⟩ [[], [], []] = (⟨ctxZ, 0, 3⟩, [])
  ∧ (runTransfers ⟨ctxZ, 0, 0⟩ [[], [], [], []]).2 = [Packet.dfEnd]
  ∧ (runTransfers ⟨ctxZ, 0, 0⟩ [[], [], [], []]).1.num_samples = -1
  ∧ (receive_transfer (runTransfers ⟨ctxZ, 0, 0⟩ [[], [], [], []]).1 (some [])).2
      = [] := by
  refine ⟨?_, ?_, by decide, by decide, by decide, by decide⟩
  · intro st h
    rw [receive_transfer_empty st h]
    split
    case isTrue hlt =>
      refine ⟨rfl, ?_, ?_⟩ <;> simp [hlt]
    case isFalse hlt =>
      refine ⟨rfl, ?_, ?_⟩ <;> simp [hlt, h]
  · intro st b bs h
    rw [receive_transfer_nonempty st (b :: bs) h (by simp)]
    split
    · split
      · rfl
      · exact receive_transfer_fired_empty_count ..
      · exact receive_transfer_fired_empty_count ..
    · exact receive_transfer_fired_empty_count ..

/-- Witness for `c5_empty_watchdog` at a concrete engine state: with the
counter already at 3 = MAX_EMPTY_TRANSFERS, a fourth empty completion emits
END, and a nonempty completion from the same state resets the counter. -/
theorem c5_empty_watchdog_witness :
    ((receive_transfer ⟨ctxZ, 0, 3⟩ (some [])).2 = [Packet.dfEnd]
      ↔ MAX_EMPTY_TRANSFERS < 3 + 1)
  ∧ (receive_transfer ⟨ctxZ, 0, 3⟩ (some [0, 1])).1.empty_transfer_count = 0 :=
  ⟨(c5_empty_watchdog.1 ⟨ctxZ, 0, 3⟩ (by decide)).2.1,
   c5_empty_watchdog.2.1 ⟨ctxZ, 0, 3⟩ 0 [1] (by decide)⟩

/-- Once the kill switch is set, every driver operation preserves it and no
LOGIC packet is ever emitted (HEADERs from starts and ENDs from stops are
the only possible outputs). -/
lemma runOps_killed :
    ∀ (ops : List DriverOp) (st : EngineState), st.num_samples = -1 →
      (runOps st ops).1.num_samples = -1
    ∧ ((runOps st ops).2.all fun p => !isLogic p) = true := by
  intro ops
  induction ops with
  | nil => exact fun st h => ⟨h, rfl⟩
  | cons op ops ih =>
    intro st h
    have hop : (runOp st op).1.num_samples = -1
        ∧ ((runOp st op).2.all fun p => !isLogic p) = true := by
      cases op with
      | start => exact ⟨h, rfl⟩
      | stop => exact ⟨rfl, rfl⟩
      | transfer buf =>
        simp only [runOp, receive_transfer, if_pos h]
        exact ⟨h, rfl⟩
    have hrest := ih (runOp st op).1 hop.1
    refine ⟨hrest.1, ?_⟩
    simp only [runOps, List.all_append]
    rw [hop.2, hrest.2]
    rfl

/-- C9: the sample counter is process-global (function-static) state;
`hw_dev_acquisition_stop` sets it to -1 and no driver operation ever resets
it: after any stop, any sequence of acquisition starts, stops and transfer
completions leaves the counter at -1, never emits a LOGIC packet again, and
every transfer completion is freed immediately with no output and no state
change. -/
theorem c9_static_kill_switch (st : EngineState) (ops : List DriverOp) :
    (hw_dev_acquisition_stop st).1.num_samples = -1
  ∧ (runOps (hw_dev_acquisition_stop st).1 ops).1.num_samples = -1
  ∧ ((runOps (hw_dev_acquisition_stop st).1 ops).2.all fun p => !isLogic p) = true
  ∧ ∀ buf : List Nat,
      receive_transfer (hw_dev_acquisition_stop st).1 (some buf)
        = ((hw_dev_acquisition_stop st).1, []) := by
  have hk := runOps_killed ops (hw_dev_acquisition_stop st).1 rfl
  refine ⟨rfl, hk.1, hk.2, fun buf => ?_⟩
  simp [receive_transfer, hw_dev_acquisition_stop]

/-- Witness for `c9_static_kill_switch`: a second acquisition started after a
stop never emits LOGIC even when a nonempty transfer completes. -/
theorem c9_static_kill_switch_witness :
    ((runOps (hw_dev_acquisition_stop ⟨ctxZ, 0, 0⟩).1
        [DriverOp.start, DriverOp.transfer [1, 2, 3]]).2.all
      fun p => !isLogic p) = true :=
  (c9_static_kill_switch ⟨ctxZ, 0, 0⟩
    [DriverOp.start, DriverOp.transfer [1, 2, 3]]).2.2.1

/-- When a trigger string fits in the stage arrays
(`stage + length ≤ NUM_TRIGGER_STAGES`), the trigger loop of
`configure_probes` succeeds and every array index it writes is either an
index written before the call or below NUM_TRIGGER_STAGES. -/
lemma trigger_loop_inbounds :
    ∀ (cs : List Char) (pb : Nat) (tm tv : List Nat) (stage : Nat) (ws : List Nat),
      stage + cs.length ≤ NUM_TRIGGER_STAGES →
      (configure_probes_trigger_loop pb cs tm tv stage ws).1 = true
    ∧ ∀ j ∈ (configure_probes_trigger_loop pb cs tm tv stage ws).2.2.2.2,
        j ∈ ws ∨ j < NUM_TRIGGER_STAGES := by
  intro cs
  induction cs with
  | nil =>
    intro pb tm tv stage ws _
    exact ⟨rfl, fun j hj => Or.inl hj⟩
  | cons c cs ih =>
    intro pb tm tv stage ws hle
    simp only [List.length_cons] at hle
    simp only [configure_probes_trigger_loop]
    rw [if_neg (by omega)]
    have hrec := ih pb (tm.set stage (tm.getD stage 0 ||| pb))
      (if c = '1' then tv.set stage (tv.getD stage 0 ||| pb) else tv)
      (stage + 1) (ws ++ [stage]) (by omega)
    refine ⟨hrec.1, fun j hj => ?_⟩
    rcases hrec.2 j hj with hj' | hj'
    · rcases List.mem_append.1 hj' with hj'' | hj''
      · exact Or.inl hj''
      · simp only [List.mem_singleton] at hj''
        subst hj''
        exact Or.inr (by omega)
    · exact Or.inr hj'

/-- When every trigger string of every probe fits in the stage arrays,
`configure_probes_go` succeeds and every written index is in bounds. -/
lemma configure_probes_go_inbounds :
    ∀ (ps : List SrProbe) (ctx : Context) (stage : Option Nat) (ws : List Nat),
      (∀ p ∈ ps, (p.trigger.getD []).length ≤ NUM_TRIGGER_STAGES) →
      (∀ j ∈ ws, j < NUM_TRIGGER_STAGES) →
      (configure_probes_go ps ctx stage ws).1 = SRStatus.ok
    ∧ ∀ j ∈ (configure_probes_go ps ctx stage ws).2.2, j < NUM_TRIGGER_STAGES := by
  intro ps
  induction ps with
  | nil =>
    intro ctx stage ws _ hws
    cases stage <;> exact ⟨rfl, hws⟩
  | cons p ps ih =>
    intro ctx stage ws hp hws
    have hps : ∀ q ∈ ps, (q.trigger.getD []).length ≤ NUM_TRIGGER_STAGES :=
      fun q hq => hp q (List.mem_cons_of_mem p hq)
    by_cases he : p.enabled = false
    · simp only [configure_probes_go, if_pos he]
      exact ih ctx stage ws hps hws
    · cases htr : p.trigger with
      | none =>
        simp only [configure_probes_go, if_neg he, htr]
        exact ih _ stage ws hps hws
      | some cs =>
        have hcs : cs.length ≤ NUM_TRIGGER_STAGES := by
          have := hp p (List.mem_cons_self p ps)
          rwa [htr] at this
        have hloop := trigger_loop_inbounds cs (2 ^ (p.index - 1))
          ctx.trigger_mask ctx.trigger_value 0 ws (by omega)
        simp only [configure_probes_go, if_neg he, htr]
        rw [if_pos hloop.1]
        refine ih _ _ _ hps fun j hj => ?_
        rcases hloop.2 j hj with hj' | hj'
        · exact hws j hj'
        · exact hj'

/-- C10: in `configure_probes`, an enabled probe whose trigger string has
length NUM_TRIGGER_STAGES + 1 makes the loop write the trigger arrays at
index NUM_TRIGGER_STAGES — one past the last valid index of those
NUM_TRIGGER_STAGES-element arrays — before the `stage > NUM_TRIGGER_STAGES`
check returns SR_ERR; and when every trigger string has length at most
NUM_TRIGGER_STAGES, every written index is in bounds and the error branch
is unreachable (the call returns SR_OK). -/
theorem c10_trigger_oob :
    ((configure_probes ctxZ [⟨1, true, some ['0', '0', '0', '0', '1']⟩]).1
        = SRStatus.err
      ∧ NUM_TRIGGER_STAGES
          ∈ (configure_probes ctxZ [⟨1, true, some ['0', '0', '0', '0', '1']⟩]).2.2
      ∧ (List.replicate NUM_TRIGGER_STAGES (0 : Nat)).length = NUM_TRIGGER_STAGES)
  ∧ ∀ (ctx : Context) (ps : List SrProbe),
      (∀ p ∈ ps, (p.trigger.getD []).length ≤ NUM_TRIGGER_STAGES) →
      (configure_probes ctx ps).1 = SRStatus.ok
      ∧ ∀ j ∈ (configure_probes ctx ps).2.2, j < NUM_TRIGGER_STAGES := by
  refine ⟨by decide, fun ctx ps hp => ?_⟩
  exact configure_probes_go_inbounds ps _ none [] hp (by simp)

/-- Witness for the in-bounds part of `c10_trigger_oob` on a length-4
trigger string. -/
theorem c10_trigger_oob_witness :
    (configure_probes ctxZ [⟨1, true, some ['0', '0', '1', '1']⟩]).1 = SRStatus.ok
  ∧ ∀ j ∈ (configure_probes ctxZ [⟨1, true, some ['0', '0', '1', '1']⟩]).2.2,
      j < NUM_TRIGGER_STAGES :=
  c10_trigger_oob.2 ctxZ [⟨1, true, some ['0', '0', '1', '1']⟩] (by decide)

/-- An INACTIVE device entry (fully enumerated, no open handle) with the
samplerate never configured, together with a matching USB device, used for
the C8 counterexample. -/
def devC8 : Dev :=
  { status := DevStatus.inactive, usb_bus := 1, usb_address := 5, devhdl := false,
    fw_updated := 0, fw_vid := 0x0925, fw_pid := 0x3881, ctx := ctxZ }

/-- The matching libusb device-list entry for `devC8`. -/
def usbC8 : UsbDev :=
  { bus := 1, address := 5, vid := 0x0925, pid := 0x3881, openOk := true }

/-- C8 counterexample: a successful open followed by close is NOT a pure
status round-trip for every device — when `cur_samplerate` is still 0,
`hw_dev_open` sets it to the slowest supported rate (200 kHz) and sends the
rate command to the device, and the new rate persists after close, so the
device state after close differs from the state before open. -/
theorem c8_counterexample :
    (hw_dev_open [usbC8] 0 true true true devC8).1 = SRStatus.ok
  ∧ (hw_dev_open [usbC8] 0 true true true devC8).2.1.status = DevStatus.active
  ∧ devC8.ctx.cur_samplerate = 0
  ∧ (close_dev (hw_dev_open [usbC8] 0 true true true devC8).2.1).ctx.cur_samplerate
      = 200000
  ∧ close_dev (hw_dev_open [usbC8] 0 true true true devC8).2.1 ≠ devC8 := by
  decide

/-- A successful `sl_open_dev` scan on an INACTIVE device only flips the
status to ACTIVE and records the open handle: the matching entry has the
device's recorded bus and address, so even the 0xff-sentinel address update
writes back the recorded address. -/
lemma sl_open_dev_scan_inactive :
    ∀ (us : List UsbDev) (d : Dev) (devIndex skip : Nat),
      d.status = DevStatus.inactive →
      (sl_open_dev_scan d devIndex us skip).1 = SRStatus.ok →
      (sl_open_dev_scan d devIndex us skip).2
        = { d with status := DevStatus.active, devhdl := true } := by
  intro us
  induction us with
  | nil =>
    intro d i s h hok
    exact absurd hok (by simp [sl_open_dev_scan])
  | cons u us ih =>
    intro d i s h hok
    simp only [sl_open_dev_scan] at hok ⊢
    by_cases hvid : u.vid = d.fw_vid ∧ u.pid = d.fw_pid
    case neg =>
      rw [if_neg hvid] at hok ⊢
      exact ih d i s h hok
    case pos =>
      rw [if_pos hvid] at hok ⊢
      rw [if_neg (show ¬(d.status = DevStatus.initializing ∧ s ≠ i) by
        simp [h])] at hok ⊢
      by_cases hmis : d.status = DevStatus.inactive
          ∧ (u.bus ≠ d.usb_bus ∨ u.address ≠ d.usb_address)
      · rw [if_pos hmis] at hok ⊢
        exact ih d i s h hok
      · rw [if_neg hmis] at hok ⊢
        have haddr : u.address = d.usb_address := by
          rcases not_and_or.1 hmis with hx | hx
          · exact absurd h hx
          · rcases not_or.1 hx with ⟨_, hx2⟩
            exact not_not.1 hx2
        by_cases hop : u.openOk = true
        · rw [if_pos hop] at hok ⊢
          have hval : (if d.usb_address = 0xff then u.address else d.usb_address)
              = d.usb_address := by
            split
            · exact haddr
            · rfl
          rw [hval]
        · rw [if_neg hop] at hok
          exact absurd hok (by simp)

/-- C8 (amended): for a device in status INACTIVE with no open handle and
`cur_samplerate` already nonzero, a successful `hw_dev_open` followed by
`close_dev` restores exactly the initial device state, the status passing
INACTIVE → ACTIVE → INACTIVE. -/
theorem c8_open_close (devlist : List UsbDev) (devIndex : Nat)
    (claimOk newFw transferOk : Bool) (d : Dev)
    (hst : d.status = DevStatus.inactive) (hh : d.devhdl = false)
    (hsr : d.ctx.cur_samplerate ≠ 0)
    (hok : (hw_dev_open devlist devIndex claimOk newFw transferOk d).1 = SRStatus.ok) :
    (hw_dev_open devlist devIndex claimOk newFw transferOk d).2.1.status
        = DevStatus.active
  ∧ close_dev (hw_dev_open devlist devIndex claimOk newFw transferOk d).2.1 = d := by
  have hna : d.status ≠ DevStatus.active := by simp [hst]
  by_cases hr : (sl_open_dev devlist devIndex d).1 = SRStatus.ok
  case neg =>
    exfalso
    unfold hw_dev_open at hok
    rw [if_pos hr] at hok
    exact absurd hok (by simp)
  case pos =>
    have hd1 : (sl_open_dev devlist devIndex d).2
        = { d with status := DevStatus.active, devhdl := true } := by
      unfold sl_open_dev at hr ⊢
      rw [if_neg hna] at hr ⊢
      exact sl_open_dev_scan_inactive devlist d devIndex 0 hst hr
    unfold hw_dev_open at hok ⊢
    rw [if_neg (by simp [hr])] at hok ⊢
    by_cases hc : claimOk = false
    · rw [if_pos hc] at hok
      exact absurd hok (by simp)
    · rw [if_neg hc] at hok ⊢
      have hcs : ¬(sl_open_dev devlist devIndex d).2.ctx.cur_samplerate = 0 := by
        rw [hd1]
        exact hsr
      rw [if_neg hcs]
      rw [hd1]
      refine ⟨rfl, ?_⟩
      unfold close_dev
      rw [if_neg (by simp)]
      rw [← hst, ← hh]

/-- Witness for `c8_open_close` on a concrete INACTIVE device with a
configured samplerate. -/
theorem c8_open_close_witness :
    (hw_dev_open [usbC8] 0 true true true
        { devC8 with ctx := { ctxZ with cur_samplerate := 1000000 } }).2.1.status
      = DevStatus.active
  ∧ close_dev (hw_dev_open [usbC8] 0 true true true
      { devC8 with ctx := { ctxZ with cur_samplerate := 1000000 } }).2.1
      = { devC8 with ctx := { ctxZ with cur_samplerate := 1000000 } } :=
  c8_open_close [usbC8] 0 true true true
    { devC8 with ctx := { ctxZ with cur_samplerate := 1000000 } }
    (by decide) (by decide) (by decide) (by decide)

/-- Sum of LOGIC lengths distributes over trace concatenation. -/
lemma sumLogic_append (a b : List Packet) :
    sumLogic (a ++ b) = sumLogic a + sumLogic b := by
  simp [sumLogic]

/-- What the trigger-search loop guarantees about its outcome, relative to
the entry context's trigger-buffer length `blen` and sample limit `lim`:
an early return or normal exit leaves the stage nonnegative; a fire leaves
the stage at TRIGGER_FIRED, computes an offset of at least 1 (the matching
byte is consumed), and has already emitted LOGIC data of at most `blen`
bytes (the prefix of the trigger buffer).  The loop never touches
`limit_samples` or the buffer's length. -/
def SearchOut (blen lim : Nat) : MatchOut → Prop
  | .ret c => 0 ≤ c.trigger_stage ∧ c.trigger_buffer.length = blen
      ∧ c.limit_samples = lim
  | .done c => 0 ≤ c.trigger_stage ∧ c.trigger_buffer.length = blen
      ∧ c.limit_samples = lim
  | .fired c off pkts =>
      c.trigger_stage = TRIGGER_FIRED ∧ 1 ≤ off ∧ sumLogic pkts ≤ blen
      ∧ c.trigger_buffer.length = blen ∧ c.limit_samples = lim

/-- The trigger-search loop satisfies `SearchOut` whenever it is entered
with a nonnegative stage. -/
lemma trigger_search_out (buf : List Nat) :
    ∀ (fuel : Nat) (ctx : Context) (i : Nat), 0 ≤ ctx.trigger_stage →
      SearchOut ctx.trigger_buffer.length ctx.limit_samples
        (trigger_search buf fuel ctx i) := by
  intro fuel
  induction fuel with
  | zero => exact fun ctx i h => ⟨h, rfl, rfl⟩
  | succ fuel ih =>
    intro ctx i h
    simp only [trigger_search]
    by_cases h1 : i < buf.length
    case neg =>
      rw [if_neg h1]
      exact ⟨h, rfl, rfl⟩
    case pos =>
      rw [if_pos h1]
      by_cases h2 : buf.getD i 0 &&& ctx.trigger_mask.getD ctx.trigger_stage.toNat 0
          = ctx.trigger_value.getD ctx.trigger_stage.toNat 0
      case pos =>
        rw [if_pos h2]
        by_cases h3 : ctx.trigger_stage.toNat + 1 = NUM_TRIGGER_STAGES
            ∨ ctx.trigger_mask.getD (ctx.trigger_stage.toNat + 1) 0 = 0
        case pos =>
          rw [if_pos h3]
          refine ⟨rfl, by omega, ?_, by simp, rfl⟩
          simp only [sumLogic, List.map_cons, List.map_nil, logicLen,
            List.sum_cons, List.sum_nil, List.length_take, List.length_set]
          omega
        case neg =>
          rw [if_neg h3]
          exact ⟨by show (0 : Int) ≤ ctx.trigger_stage + 1; omega, by simp, rfl⟩
      case neg =>
        rw [if_neg h2]
        by_cases h4 : 0 < ctx.trigger_stage.toNat
        case pos =>
          rw [if_pos h4]
          exact ih { ctx with trigger_stage := 0 }
            (i + 1 - ctx.trigger_stage.toNat) (le_refl 0)
        case neg =>
          rw [if_neg h4]
          exact ih ctx (i + 1) h

/-- Invariant tying the engine state to the LOGIC bytes emitted so far
(`acc`): before the trigger fires nothing has been emitted and the sample
counter is 0; after the fire the emitted bytes exceed `num_samples` by at
most NUM_TRIGGER_STAGES − 1 (trigger-buffer bytes matched in earlier
transfers) and `num_samples` has not yet passed the limit; once the kill
switch is set, the total is within the claimed-plus-slack bound. -/
def EngineInv (limit : Nat) (st : EngineState) (acc : Nat) : Prop :=
  (st.num_samples = 0 ∧ 0 ≤ st.ctx.trigger_stage ∧ acc = 0)
  ∨ (st.ctx.trigger_stage = TRIGGER_FIRED ∧ 0 ≤ st.num_samples
      ∧ st.num_samples ≤ (limit : Int)
      ∧ (acc : Int) ≤ st.num_samples + ((NUM_TRIGGER_STAGES : Int) - 1))
  ∨ (st.num_samples = -1 ∧ acc ≤ limit + 4096 + (NUM_TRIGGER_STAGES - 1))

/-- One completion preserves `EngineInv` (and the context fields it depends
on) when every transfer is at most 4096 bytes and the limit is nonzero. -/
lemma receive_transfer_inv (limit : Nat) (st : EngineState) (buf : List Nat)
    (acc : Nat) (hinv : EngineInv limit st acc) (hlen : buf.length ≤ 4096)
    (hpos : 0 < limit) (hlim : st.ctx.limit_samples = limit)
    (hbuf : st.ctx.trigger_buffer.length = NUM_TRIGGER_STAGES) :
    EngineInv limit (receive_transfer st (some buf)).1
      (acc + sumLogic (receive_transfer st (some buf)).2)
  ∧ (receive_transfer st (some buf)).1.ctx.limit_samples = limit
  ∧ (receive_transfer st (some buf)).1.ctx.trigger_buffer.length
      = NUM_TRIGGER_STAGES := by
  have hN : NUM_TRIGGER_STAGES = 4 := rfl
  rcases hinv with ⟨hn0, hstg, hacc0⟩ | ⟨hcf, hge, hle, hacc⟩ | ⟨hk, hkb⟩
  -- searching: nothing emitted yet, num_samples = 0
  case inl =>
    have hne : st.num_samples ≠ -1 := by rw [hn0]; decide
    by_cases hb : buf.length = 0
    · obtain rfl : buf = [] := List.length_eq_zero.mp hb
      rw [receive_transfer_empty st hne]
      split
      · exact ⟨Or.inr (Or.inr ⟨rfl, by simp [sumLogic, logicLen]; omega⟩), hlim, hbuf⟩
      · exact ⟨Or.inl ⟨hn0, hstg, by simp [sumLogic]; omega⟩, hlim, hbuf⟩
    · rw [receive_transfer_nonempty st buf hne hb]
      rw [if_pos hstg]
      have hso := trigger_search_out buf (buf.length + 2) st.ctx 0 hstg
      cases hts : trigger_search buf (buf.length + 2) st.ctx 0 with
      | ret c =>
        rw [hts] at hso
        obtain ⟨hc1, hc2, hc3⟩ := hso
        simp only [hts]
        exact ⟨Or.inl ⟨hn0, hc1, by simp [sumLogic]; omega⟩,
          by rw [hc3, hlim], by rw [hc2, hbuf]⟩
      | done c =>
        rw [hts] at hso
        obtain ⟨hc1, hc2, hc3⟩ := hso
        simp only [hts]
        unfold receive_transfer_fired
        rw [if_neg (by rw [TRIGGER_FIRED]; omega)]
        exact ⟨Or.inl ⟨hn0, hc1, by simp [sumLogic]; omega⟩,
          by rw [hc3, hlim], by rw [hc2, hbuf]⟩
      | fired c off pkts =>
        rw [hts] at hso
        obtain ⟨hc1, hoff, hsum, hc2, hc3⟩ := hso
        simp only [hts]
        unfold receive_transfer_fired
        rw [if_pos hc1]
        rw [hbuf] at hsum
        have hsk : sumLogic [Packet.logic (buf.drop off), Packet.dfEnd]
            = buf.length - off := by
          simp [sumLogic, logicLen]
        have hsl : sumLogic [Packet.logic (buf.drop off)] = buf.length - off := by
          simp [sumLogic, logicLen]
        by_cases hstop : c.limit_samples ≠ 0
            ∧ (c.limit_samples : Int) < st.num_samples + buf.length
        · rw [if_pos hstop]
          dsimp only
          refine ⟨Or.inr (Or.inr ⟨rfl, ?_⟩), by rw [hc3, hlim], by rw [hc2, hbuf]⟩
          rw [sumLogic_append, hsk]
          omega
        · rw [if_neg hstop]
          dsimp only
          have hle2 : st.num_samples + (buf.length : Int) ≤ (limit : Int) := by
            rcases not_and_or.1 hstop with hx | hx
            · exact absurd (by rw [hc3]; omega) hx
            · rw [hc3] at hx
              omega
          refine ⟨Or.inr (Or.inl ⟨hc1, by dsimp only; omega,
            by dsimp only; omega, ?_⟩),
            by rw [hc3, hlim], by rw [hc2, hbuf]⟩
          rw [sumLogic_append, hsl]
          dsimp only
          push_cast
          omega
  -- fired: LOGIC flows, num_samples counts
  case inr.inl =>
    have hne : st.num_samples ≠ -1 := by omega
    by_cases hb : buf.length = 0
    · obtain rfl : buf = [] := List.length_eq_zero.mp hb
      rw [receive_transfer_empty st hne]
      split
      · refine ⟨Or.inr (Or.inr ⟨rfl, ?_⟩), hlim, hbuf⟩
        simp only [sumLogic, List.map_cons, List.map_nil, logicLen,
          List.sum_cons, List.sum_nil]
        omega
      · exact ⟨Or.inr (Or.inl ⟨hcf, hge, hle, by simp [sumLogic]; omega⟩), hlim, hbuf⟩
    · rw [receive_transfer_nonempty st buf hne hb]
      rw [if_neg (by rw [hcf, TRIGGER_FIRED]; omega)]
      unfold receive_transfer_fired
      rw [if_pos hcf]
      have hsk : sumLogic ([] ++ [Packet.logic (buf.drop 0), Packet.dfEnd])
          = buf.length := by
        simp [sumLogic, logicLen]
      have hsl : sumLogic ([] ++ [Packet.logic (buf.drop 0)]) = buf.length := by
        simp [sumLogic, logicLen]
      by_cases hstop : st.ctx.limit_samples ≠ 0
          ∧ (st.ctx.limit_samples : Int) < st.num_samples + buf.length
      · rw [if_pos hstop]
        dsimp only
        refine ⟨Or.inr (Or.inr ⟨rfl, ?_⟩), hlim, hbuf⟩
        rw [hsk]
        omega
      · rw [if_neg hstop]
        dsimp only
        have hle2 : st.num_samples + (buf.length : Int) ≤ (limit : Int) := by
          rcases not_and_or.1 hstop with hx | hx
          · exact absurd (by rw [hlim]; omega) hx
          · rw [hlim] at hx
            omega
        refine ⟨Or.inr (Or.inl ⟨hcf, by dsimp only; omega,
          by dsimp only; omega, ?_⟩), hlim, hbuf⟩
        rw [hsl]
        dsimp only
        push_cast
        omega
  -- killed: completions are freed with no output
  case inr.inr =>
    simp only [receive_transfer, if_pos hk]
    exact ⟨Or.inr (Or.inr ⟨hk, by simpa [sumLogic] using hkb⟩), hlim, hbuf⟩

/-- Invariant `EngineInv` is preserved along any sequence of completions. -/
lemma runTransfers_inv (limit : Nat) :
    ∀ (ts : List (List Nat)) (st : EngineState) (acc : Nat),
      EngineInv limit st acc → (∀ b ∈ ts, b.length ≤ 4096) → 0 < limit →
      st.ctx.limit_samples = limit →
      st.ctx.trigger_buffer.length = NUM_TRIGGER_STAGES →
      EngineInv limit (runTransfers st ts).1
        (acc + sumLogic (runTransfers st ts).2) := by
  intro ts
  induction ts with
  | nil =>
    intro st acc hinv _ _ _ _
    simpa [runTransfers, sumLogic] using hinv
  | cons buf ts ih =>
    intro st acc hinv hb hpos hlim hbuf
    have hstep := receive_transfer_inv limit st buf acc hinv
      (hb buf (List.mem_cons_self ..)) hpos hlim hbuf
    have hrest := ih (receive_transfer st (some buf)).1
      (acc + sumLogic (receive_transfer st (some buf)).2)
      hstep.1 (fun b hbm => hb b (List.mem_cons_of_mem _ hbm)) hpos
      hstep.2.1 hstep.2.2
    simp only [runTransfers]
    rw [sumLogic_append, ← Nat.add_assoc]
    exact hrest

/-- C4 (amended): with a nonzero sample limit and transfers of at most 4096
bytes, the total LOGIC bytes emitted over any run are bounded by
`limit_samples + 4096 + (NUM_TRIGGER_STAGES − 1)`: the limit may be
overshot by one transfer, plus up to NUM_TRIGGER_STAGES − 1 bytes of the
trigger-buffer LOGIC packet whose stage bytes matched in earlier transfers
and are not counted in `num_samples`. -/
theorem c4_sample_limit_bound (ctx : Context) (ts : List (List Nat))
    (hpos : 0 < ctx.limit_samples)
    (hlen : ∀ b ∈ ts, b.length ≤ 4096)
    (hbuf : ctx.trigger_buffer.length = NUM_TRIGGER_STAGES)
    (hstage : TRIGGER_FIRED ≤ ctx.trigger_stage) :
    sumLogic (runTransfers ⟨ctx, 0, 0⟩ ts).2
      ≤ ctx.limit_samples + 4096 + (NUM_TRIGGER_STAGES - 1) := by
  have hN : NUM_TRIGGER_STAGES = 4 := rfl
  have h0 : EngineInv ctx.limit_samples ⟨ctx, 0, 0⟩ 0 := by
    rcases eq_or_lt_of_le hstage with heq | hlt
    · refine Or.inr (Or.inl ⟨heq.symm, le_refl 0, by dsimp only; omega,
        by dsimp only; rw [hN]; omega⟩)
    · refine Or.inl ⟨rfl, ?_, rfl⟩
      dsimp only
      rw [TRIGGER_FIRED] at hlt
      omega
  have := runTransfers_inv ctx.limit_samples ts ⟨ctx, 0, 0⟩ 0 h0 hlen hpos rfl hbuf
  rcases this with ⟨_, _, hacc⟩ | ⟨_, _, hle, hacc⟩ | ⟨_, hacc⟩
  · omega
  · rw [hN] at hacc ⊢
    omega
  · omega

/-- Context configured with trigger "01" on probe 1 and a 2-byte sample
limit, used for the C4 counterexample. -/
def ctxC4 : Context :=
  { probe_mask := 1, trigger_mask := [1, 1, 0, 0], trigger_value := [0, 1, 0, 0],
    trigger_stage := 0, trigger_buffer := [0, 0, 0, 0],
    cur_samplerate := 4000000, limit_samples := 2 }

/-- State of `ctxC4` after the first counterexample transfer {0x00}: the matcher
advanced to stage 1 and returned. -/
def ctxC4b : Context := { ctxC4 with trigger_stage := 1 }

/-- State of `ctxC4` after the second counterexample transfer {0x01, 0xFF}: the
trigger fired with trigger_buffer prefix {0x00, 0x01}. -/
def ctxC4c : Context :=
  { ctxC4 with trigger_stage := TRIGGER_FIRED, trigger_buffer := [0, 1, 0, 0] }

/-- C4 counterexample: with sample_limit = 2, a first transfer {0x00}
advances the trigger to stage 1 (counting nothing), a second transfer
{0x01, 0xFF} fires the trigger and emits LOGIC(2) + LOGIC(1) with
num_samples = 2 (not over the limit), and a third 4096-byte transfer emits
LOGIC(4096) before the limit check stops the engine: the LOGIC total is
2 + 1 + 4096 = 4099 > sample_limit + 4096 = 4098, because the stage-0 byte
of the trigger buffer came from the first transfer and was never counted
in num_samples. -/
theorem c4_counterexample :
    sumLogic (runTransfers ⟨ctxC4, 0, 0⟩
        [[0], [1, 255], List.replicate 4096 255]).2 = 4099
  ∧ ctxC4.limit_samples + 4096 < 4099 := by
  refine ⟨?_, by decide⟩
  have h1 : receive_transfer ⟨ctxC4, 0, 0⟩ (some [0]) = (⟨ctxC4b, 0, 0⟩, []) := by
    decide
  have h2 : receive_transfer ⟨ctxC4b, 0, 0⟩ (some [1, 255])
      = (⟨ctxC4c, 2, 0⟩,
         [Packet.trigger, Packet.logic [0, 1], Packet.logic [255]]) := by
    decide
  have hlen : (List.replicate 4096 (255 : Nat)).length = 4096 :=
    List.length_replicate ..
  have h3 : receive_transfer ⟨ctxC4c, 2, 0⟩ (some (List.replicate 4096 255))
      = (⟨ctxC4c, -1, 0⟩,
         [] ++ [Packet.logic ((List.replicate 4096 (255 : Nat)).drop 0),
                Packet.dfEnd]) := by
    rw [receive_transfer_nonempty ⟨ctxC4c, 2, 0⟩ (List.replicate 4096 255)
      (by decide) (by rw [hlen]; decide)]
    rw [if_neg (by decide)]
    unfold receive_transfer_fired
    rw [if_pos (by decide), if_pos ⟨by decide, by rw [hlen]; decide⟩]
  simp only [runTransfers, h1, h2, h3]
  rw [List.nil_append, sumLogic_append, sumLogic_append, sumLogic_append]
  have hs1 : sumLogic ([] : List Packet) = 0 := rfl
  have hs2 : sumLogic [Packet.trigger, Packet.logic [0, 1], Packet.logic [255]]
      = 3 := by decide
  have hs3 : sumLogic [Packet.logic ((List.replicate 4096 (255 : Nat)).drop 0),
      Packet.dfEnd] = 4096 := by
    simp only [sumLogic, List.map_cons, List.map_nil, logicLen, List.sum_cons,
      List.sum_nil, List.drop_zero, hlen]
    rfl
  rw [hs1, hs2, hs3]

/-- Witness for `c4_sample_limit_bound` on the counterexample trace: the
amended bound 2 + 4096 + 3 does hold there. -/
theorem c4_sample_limit_bound_witness :
    sumLogic (runTransfers ⟨ctxC4, 0, 0⟩
        [[0], [1, 255], List.replicate 4096 255]).2
      ≤ ctxC4.limit_samples + 4096 + (NUM_TRIGGER_STAGES - 1) :=
  c4_sample_limit_bound ctxC4 [[0], [1, 255], List.replicate 4096 255]
    (by decide)
    (by
      intro b hb
      simp only [List.mem_cons, List.not_mem_nil, or_false] at hb
      rcases hb with rfl | rfl | rfl
      · decide
      · decide
      · exact le_of_eq (List.length_replicate ..))
    (by decide) (by decide)

end Saleae
